import Mathlib

/-!
Shallow embedding of `src/components/video-converter.tsx` (the single source
file of the repository): the bitrate heuristic, the file-validation logic,
the upload / convert / download state machine, lazy engine initialization,
the download-name derivation and the size formatter, together with theorems
settling the specification claims about them.
-/

namespace VC

/--
Model of a JavaScript (IEEE-754 double) number as used by the bitrate
computation.  Finite values are modelled exactly as rationals (the source
expressions stay well within the range where float rounding cannot affect
any of the comparisons made here); the special values `NaN`, `Infinity`
and `-Infinity` are modelled explicitly because `duration = 0` makes the
source divide by zero, whose JS semantics is `Infinity`/`NaN`, not an error.
-/
inductive JSNum where
  | nan
  | inf
  | ninf
  | fin (q : ℚ)
deriving DecidableEq

/-- JavaScript multiplication on numbers (IEEE-754 special-value rules). -/
def jsMul : JSNum → JSNum → JSNum
  | JSNum.nan, _ => JSNum.nan
  | _, JSNum.nan => JSNum.nan
  | JSNum.inf, JSNum.inf => JSNum.inf
  | JSNum.inf, JSNum.ninf => JSNum.ninf
  | JSNum.ninf, JSNum.inf => JSNum.ninf
  | JSNum.ninf, JSNum.ninf => JSNum.inf
  | JSNum.inf, JSNum.fin q =>
      if q = 0 then JSNum.nan else if 0 < q then JSNum.inf else JSNum.ninf
  | JSNum.fin q, JSNum.inf =>
      if q = 0 then JSNum.nan else if 0 < q then JSNum.inf else JSNum.ninf
  | JSNum.ninf, JSNum.fin q =>
      if q = 0 then JSNum.nan else if 0 < q then JSNum.ninf else JSNum.inf
  | JSNum.fin q, JSNum.ninf =>
      if q = 0 then JSNum.nan else if 0 < q then JSNum.ninf else JSNum.inf
  | JSNum.fin p, JSNum.fin q => JSNum.fin (p * q)

/-- JavaScript division on numbers (IEEE-754 special-value rules;
division by zero yields an infinity, `0 / 0` yields `NaN`). -/
def jsDiv : JSNum → JSNum → JSNum
  | JSNum.nan, _ => JSNum.nan
  | _, JSNum.nan => JSNum.nan
  | JSNum.inf, JSNum.inf => JSNum.nan
  | JSNum.inf, JSNum.ninf => JSNum.nan
  | JSNum.ninf, JSNum.inf => JSNum.nan
  | JSNum.ninf, JSNum.ninf => JSNum.nan
  | JSNum.inf, JSNum.fin q => if q < 0 then JSNum.ninf else JSNum.inf
  | JSNum.ninf, JSNum.fin q => if q < 0 then JSNum.inf else JSNum.ninf
  | JSNum.fin _, JSNum.inf => JSNum.fin 0
  | JSNum.fin _, JSNum.ninf => JSNum.fin 0
  | JSNum.fin p, JSNum.fin q =>
      if q = 0 then
        if p = 0 then JSNum.nan else if 0 < p then JSNum.inf else JSNum.ninf
      else JSNum.fin (p / q)

/-- Model of `Math.floor` on a JavaScript number (`NaN` and infinities pass through). -/
def jsFloor : JSNum → JSNum
  | JSNum.nan => JSNum.nan
  | JSNum.inf => JSNum.inf
  | JSNum.ninf => JSNum.ninf
  | JSNum.fin q => JSNum.fin (⌊q⌋ : ℤ)

/-- Model of `Math.max` on two JavaScript numbers (`NaN` propagates). -/
def jsMax : JSNum → JSNum → JSNum
  | JSNum.nan, _ => JSNum.nan
  | _, JSNum.nan => JSNum.nan
  | JSNum.inf, _ => JSNum.inf
  | _, JSNum.inf => JSNum.inf
  | JSNum.ninf, x => x
  | x, JSNum.ninf => x
  | JSNum.fin p, JSNum.fin q => JSNum.fin (max p q)

/-- Model of `Math.min` on two JavaScript numbers (`NaN` propagates). -/
def jsMin : JSNum → JSNum → JSNum
  | JSNum.nan, _ => JSNum.nan
  | _, JSNum.nan => JSNum.nan
  | JSNum.ninf, _ => JSNum.ninf
  | _, JSNum.ninf => JSNum.ninf
  | JSNum.inf, x => x
  | x, JSNum.inf => x
  | JSNum.fin p, JSNum.fin q => JSNum.fin (min p q)

/-- Source line `const targetSizeBytes = Math.floor(file.size * 0.8)` — the 80% size
target, floored to whole bytes.  `file.size` is a nonnegative integer. -/
def targetSizeBytes (size : ℕ) : ℤ := ⌊(size : ℚ) * (4 / 5)⌋

/-- Source line `const targetBitrate = Math.floor((targetSizeBytes * 8) / mediaDuration / 1000)`
from `convertToAudio`; the duration comes from the media element and is a
JavaScript number. -/
def rawBitrate (size : ℕ) (dur : JSNum) : JSNum :=
  jsFloor (jsDiv (jsDiv (jsMul (JSNum.fin (targetSizeBytes size)) (JSNum.fin 8)) dur)
    (JSNum.fin 1000))

/-- Source line `const bitrate = Math.min(Math.max(targetBitrate, 32), 320)` from
`convertToAudio`. -/
def bitrate (size : ℕ) (dur : JSNum) : JSNum :=
  jsMin (jsMax (rawBitrate size dur) (JSNum.fin 32)) (JSNum.fin 320)

/-- Modelled from the words of the spec (for comparison with `bitrate`, which is
translated from the source): `bitrate_kbps = floor((fileSizeBytes *
targetFraction * 8) / durationSeconds / 1000)` with `targetFraction = 0.8`,
clamped to `[32, 320]`.  Note the single floor taken at the end. -/
def specBitrate (size : ℕ) (d : ℚ) : ℤ :=
  min (max ⌊(size : ℚ) * (4 / 5) * 8 / d / 1000⌋ 32) 320

/-- Metadata of a candidate `File`: name, declared MIME type, byte size. -/
structure FileData where
  name : String
  type : String
  size : ℕ
deriving DecidableEq

/-- The React state of the `VideoConverter` component: one field per
`useState` hook, in source order. -/
structure ConverterState where
  file : Option FileData
  isConverting : Bool
  progress : ℕ
  convertedAudio : Option String
  audioSize : ℕ
  error : Option String
  isDragging : Bool
deriving DecidableEq

/-- Initial state of the component (the `useState` defaults). -/
def initState : ConverterState :=
  { file := none, isConverting := false, progress := 0, convertedAudio := none,
    audioSize := 0, error := none, isDragging := false }

/-- The validation-error message set by `handleFileChange`. -/
def validationMsg : String := "Please select a valid video or MP3 file"

/-- JavaScript `String.prototype.startsWith`. -/
def jsStartsWith (s pre : String) : Bool := pre.data.isPrefixOf s.data

/-- JavaScript `String.prototype.endsWith`. -/
def jsEndsWith (s post : String) : Bool := post.data.isSuffixOf s.data

/-- JavaScript `String.prototype.toLowerCase` (ASCII case mapping, which
covers every string the component compares with). -/
def jsToLower (s : String) : String := String.mk (s.data.map Char.toLower)

/-- The `isVideo` / `isAudio` acceptance test of `handleFileChange`:
MIME type starting with `video/`, or MIME type `audio/mpeg`, or a name whose
lower-cased form ends in `.mp3`. -/
def isValidFile (f : FileData) : Bool :=
  jsStartsWith f.type "video/" || (f.type == "audio/mpeg" || jsEndsWith (jsToLower f.name) ".mp3")

/-- Function `handleFileChange`: an invalid file only sets the validation error and
returns; a valid file is stored while the previous output, error and
progress are cleared. -/
def handleFileChange (s : ConverterState) (f : FileData) : ConverterState :=
  if isValidFile f then
    { s with file := some f, convertedAudio := none, error := none, progress := 0 }
  else
    { s with error := some validationMsg }

/-- The generic failure message set by the `catch` block of `convertToAudio`. -/
def conversionErrorMsg : String := "Failed to convert video. Please try again."

/-- Start of `convertToAudio` past its guards:
`setIsConverting(true); setError(null); setProgress(0)`. -/
def startConvert (s : ConverterState) : ConverterState :=
  { s with isConverting := true, error := none, progress := 0 }

/-- Whether a click on the Convert button actually starts a conversion: the
button is disabled when `!file || isConverting`, and `convertToAudio` itself
returns early when `file` is null, so the engine is invoked exactly when
this is `true`. -/
def convertClickStarts (s : ConverterState) : Bool :=
  s.file.isSome && !s.isConverting

/-- Side effects of the component that the claims mention: blanking the
hidden file-input element, and revoking an object URL
(`URL.revokeObjectURL`). -/
inductive Effect where
  | clearInputValue
  | revokeObjectURL (url : String)
deriving DecidableEq

/-- Function `resetConverter`: sets `file := null`, `convertedAudio := null`,
`progress := 0`, `error := null`, `audioSize := 0` and blanks the file-input
element.  The source never calls `URL.revokeObjectURL` on the converted
audio URL, so no `revokeObjectURL` effect is produced. -/
def resetConverter (s : ConverterState) : ConverterState × List Effect :=
  let s2 :=
    { s with file := none, convertedAudio := none, progress := 0, error := none,
             audioSize := 0 }
  (s2, [Effect.clearInputValue])

/-- The user and engine events that drive the component. -/
inductive Event where
  | selectPick (f : FileData)
  | drop (f : FileData)
  | dragOver
  | dragLeave
  | convertClick
  | progressUpdate (p : ℕ)
  | convertSuccess (url : String) (size : ℕ)
  | convertFailure
  | resetClick
deriving DecidableEq

/-- One step of the component.  `selectPick` goes through the Upload button,
which is disabled while converting; `drop` has no such guard in the source
(the drop zone stays active during a conversion).  `convertClick` starts a
conversion only when `convertClickStarts`.  `convertSuccess` is the tail of
a running `convertToAudio` (it sets the output and the `finally` clears the
converting flag), `convertFailure` its `catch` (generic message, flag
cleared, nothing else touched, no retry).  `resetClick` is available through
the X button (shown with a file, disabled while converting) or the
Convert Another button (shown with an output). -/
def applyEvent (s : ConverterState) (e : Event) : ConverterState :=
  match e with
  | Event.selectPick f => if s.isConverting then s else handleFileChange s f
  | Event.drop f => handleFileChange { s with isDragging := false } f
  | Event.dragOver => { s with isDragging := true }
  | Event.dragLeave => { s with isDragging := false }
  | Event.convertClick => if convertClickStarts s then startConvert s else s
  | Event.progressUpdate p => if s.isConverting then { s with progress := p } else s
  | Event.convertSuccess url n =>
      if s.isConverting then
        { s with convertedAudio := some url, audioSize := n, isConverting := false }
      else s
  | Event.convertFailure =>
      if s.isConverting then
        { s with error := some conversionErrorMsg, isConverting := false }
      else s
  | Event.resetClick =>
      if (s.file.isSome && !s.isConverting) || s.convertedAudio.isSome then
        (resetConverter s).1
      else s

/-- The state after a list of events, starting from the initial state. -/
def runEvents (evs : List Event) : ConverterState :=
  evs.foldl applyEvent initState

/-- The states of the component reachable from the initial state. -/
def Reachable (s : ConverterState) : Prop := ∃ evs, runEvents evs = s

/-- State of the lazily-initialized engine: `ffmpegRef.current` (instances
numbered by creation order), with counters of remote asset downloads
(`ffmpeg-core.js` and `ffmpeg-core.wasm`) and of engine constructions. -/
structure EngineState where
  ffmpegRef : Option ℕ
  nextId : ℕ
  assetFetches : ℕ
  constructed : ℕ
deriving DecidableEq

/-- Engine state at page load: no instance, nothing fetched. -/
def initEngineState : EngineState :=
  { ffmpegRef := none, nextId := 0, assetFetches := 0, constructed := 0 }

/-- Outcome of one initialization attempt: the constructor `new FFmpeg()`
cannot throw, but the two awaited `toBlobURL` downloads and the final
awaited `ffmpeg.load` each can. -/
inductive LoadOutcome where
  | success
  | failFetch1
  | failFetch2
  | failLoad
deriving DecidableEq

/-- Number of remote asset downloads completed during an attempt: a failing
`toBlobURL` stops the download sequence early, while a failing
`ffmpeg.load` happens after both assets were already downloaded. -/
def fetchesOf : LoadOutcome → ℕ
  | LoadOutcome.success => 2
  | LoadOutcome.failFetch1 => 0
  | LoadOutcome.failFetch2 => 1
  | LoadOutcome.failLoad => 2

/-- Function `loadFFmpeg`: returns the cached instance when one exists (no
download, no construction, and no awaited call left that could throw).
Otherwise `new FFmpeg()` runs, the two assets are downloaded and `load` is
awaited; `ffmpegRef.current` is assigned only after all of that succeeds,
so a thrown download or load leaves the cache empty (`none` models the
propagated exception) and a later call starts from scratch. -/
def loadFFmpeg (s : EngineState) (o : LoadOutcome) : EngineState × Option ℕ :=
  match s.ffmpegRef with
  | some e => (s, some e)
  | none =>
      if o = LoadOutcome.success then
        let s2 : EngineState :=
          { ffmpegRef := some s.nextId, nextId := s.nextId + 1,
            assetFetches := s.assetFetches + 2, constructed := s.constructed + 1 }
        (s2, some s.nextId)
      else
        let s2 : EngineState :=
          { s with nextId := s.nextId + 1,
                   assetFetches := s.assetFetches + fetchesOf o,
                   constructed := s.constructed + 1 }
        (s2, none)

/-- Sequential initialization attempts applied to an engine state, first
attempt first. -/
def runLoads (s : EngineState) : List LoadOutcome → EngineState
  | [] => s
  | o :: os => runLoads (loadFFmpeg s o).1 os

/-- Engine state after a session consisting of the given initialization
attempts. -/
def loadSession (os : List LoadOutcome) : EngineState := runLoads initEngineState os

/-- Characters the regex `\.[^/.]+$` allows in a final extension: anything
but a dot or a slash. -/
def extChar (c : Char) : Bool := !(c == '.') && !(c == '/')

/-- Model of `name.replace(/\.[^/.]+$/, "")`: drop a final `.extension` whose
extension part is nonempty and free of dots and slashes; otherwise return
the name unchanged. -/
def stripExt (name : String) : String :=
  let r := name.data.reverse
  if r.takeWhile extChar = [] then name
  else
    match r.dropWhile extChar with
    | '.' :: rs => String.mk rs.reverse
    | _ => name

/-- The `download` attribute of the result link:
the original name with the regex match removed, then `".mp3"` appended. -/
def downloadName (name : String) : String := stripExt name ++ ".mp3"

/-- The content type given to the produced blob by `convertToAudio`. -/
def outputBlobType : String := "audio/mp3"

/-- The unit array `["Bytes", "KB", "MB", "GB"]` of `formatFileSize`. -/
def sizeUnits : List String := ["Bytes", "KB", "MB", "GB"]

/-- Function `formatFileSize`: the displayed value (rounded to two decimals) together
with the unit looked up at index `Math.floor(Math.log(bytes) / Math.log(1024))`
— in exact arithmetic the base-1024 logarithm `Nat.log 1024 bytes` — where
the lookup is `none` (JavaScript `undefined`) when the index falls outside
the array. -/
def formatFileSize (bytes : ℕ) : ℚ × Option String :=
  if bytes = 0 then (0, some "Bytes")
  else
    let i := Nat.log 1024 bytes
    (((round ((bytes : ℚ) / (1024 : ℚ) ^ i * 100) : ℤ) : ℚ) / 100, sizeUnits[i]?)

/-- Event sequence exhibiting a reachable state in which a converted output
and a validation error are present at the same time: select a valid video,
convert it successfully, then select an invalid file. -/
def claim4Events : List Event :=
  [Event.selectPick { name := "a.mp4", type := "video/mp4", size := 10 },
   Event.convertClick, Event.convertSuccess "blob:out" 5,
   Event.selectPick { name := "b.txt", type := "text/plain", size := 1 }]

/-- Event sequence exhibiting a reachable state in which a converted output
is present while a conversion is in progress: select a valid video, convert
it successfully, then press Convert again — the code never clears the
previous output when a new conversion starts. -/
def claim4EventsB : List Event :=
  [Event.selectPick { name := "a.mp4", type := "video/mp4", size := 10 },
   Event.convertClick, Event.convertSuccess "blob:out" 5, Event.convertClick]

/-- A typical post-conversion state: a file selected, a converted output with
its object URL, no error, conversion finished. -/
def claim7State : ConverterState :=
  { file := some { name := "a.mp4", type := "video/mp4", size := 10 },
    isConverting := false, progress := 100, convertedAudio := some "blob:a",
    audioSize := 5, error := none, isDragging := false }

/-!  Helper lemmas, followed by one theorem per claim (with witnesses and
counterexamples where applicable). -/

/-- Floor of a rational divided by a positive natural is the integer
(Euclidean) division of its floor. -/
theorem floor_div_natCast (x : ℚ) (m : ℕ) (hm : 0 < m) :
    ⌊x / (m : ℚ)⌋ = ⌊x⌋ / (m : ℤ) := by
  refine eq_of_forall_le_iff fun z => ?_
  rw [Int.le_floor, le_div_iff₀ (by exact_mod_cast hm),
    Int.le_ediv_iff_mul_le (by exact_mod_cast hm), Int.le_floor]
  push_cast
  exact Iff.rfl

/-- For a positive integer number of seconds, the source bitrate (which
floors the 80% size target to whole bytes before dividing) agrees with the
single-floor formula of the spec: flooring first cannot change a later floor of a
division by the integer `125 * n`. -/
theorem bitrate_int_duration (s n : ℕ) (hn : 0 < n) :
    bitrate s (JSNum.fin n) = JSNum.fin ((specBitrate s n : ℤ) : ℚ) := by
  have hn' : ((n : ℚ)) ≠ 0 := by exact_mod_cast hn.ne'
  simp only [bitrate, rawBitrate, jsMul, jsDiv, jsFloor, jsMin, jsMax,
    if_neg hn', if_neg (by norm_num : ¬ ((1000 : ℚ) = 0)), specBitrate]
  have key : ∀ y : ℚ, y * 8 / (n : ℚ) / 1000 = y / ((125 * n : ℕ) : ℚ) := fun y => by
    push_cast
    field_simp
    ring
  rw [key, key]
  rw [floor_div_natCast _ _ (by positivity), floor_div_natCast _ _ (by positivity)]
  push_cast [Int.floor_intCast, targetSizeBytes]
  rfl

/-- Claim C1 (counterexample): the claimed formula
`floor((s * 0.8 * 8) / d / 1000)` (then clamped) does not match the code for
every size and duration.  At size 6 bytes and duration `1/4096` s (an exactly
representable float), the code floors `6 * 0.8` down to 4 first and produces
a clamped bitrate of 131 kbps, while the claimed formula gives 157 kbps. -/
theorem claim1_counterexample :
    bitrate 6 (JSNum.fin (1 / 4096)) ≠ JSNum.fin ((specBitrate 6 (1 / 4096) : ℤ) : ℚ) := by
  norm_num [bitrate, rawBitrate, targetSizeBytes, jsMul, jsDiv, jsFloor, jsMin, jsMax,
    specBitrate]

/-- Claim C1 (amended): the conversion bitrate is
`floor((floor(s * 0.8) * 8) / d / 1000)` clamped to `[32, 320]`; for every
positive integer duration `n` this agrees with the claimed formula
`floor((s * 0.8 * 8) / d / 1000)` clamped to `[32, 320]`, and in particular
for `s = 100 * 1024 * 1024` and `d = 100` the raw value of the claimed
formula is 6710 kbps and the conversion bitrate is the clamped 320 kbps. -/
theorem claim1_amended :
    (∀ (s n : ℕ), 0 < n →
      bitrate s (JSNum.fin n) = JSNum.fin ((specBitrate s n : ℤ) : ℚ)) ∧
    (⌊(100 * 1024 * 1024 : ℚ) * (4 / 5) * 8 / 100 / 1000⌋ : ℤ) = 6710 ∧
    bitrate (100 * 1024 * 1024) (JSNum.fin 100) = JSNum.fin 320 ∧
    specBitrate (100 * 1024 * 1024) 100 = 320 := by
  refine ⟨fun s n hn => bitrate_int_duration s n hn, by norm_num, ?_, ?_⟩
  · norm_num [bitrate, rawBitrate, targetSizeBytes, jsMul, jsDiv, jsFloor, jsMin, jsMax]
  · norm_num [specBitrate]

/-- Witness for the amended claim C1 theorem at size 7 bytes, duration 2 s. -/
theorem claim1_witness :
    bitrate 7 (JSNum.fin 2) = JSNum.fin ((specBitrate 7 2 : ℤ) : ℚ) :=
  claim1_amended.1 7 2 (by norm_num)

/-- Claim C2: evaluation of the code at the failing input.  For a 0-byte
file with duration 0 s the bitrate computation is `(0 * 8) / 0 = NaN` in
JavaScript, and `Math.max` / `Math.min` propagate `NaN`, so the value handed
to the conversion arguments is `NaN` — not a value in `[32, 320]` as the
claim (and the comment in the code itself) state. -/
theorem claim2_nan_evaluation : bitrate 0 (JSNum.fin 0) = JSNum.nan := by
  norm_num [bitrate, rawBitrate, targetSizeBytes, jsMul, jsDiv, jsFloor, jsMin, jsMax]

/-- Claim C3 (counterexample): a file named `a.MP3` with an empty MIME type
meets the literal rejection conditions of the claim (type does not start with
`video/`, is not `audio/mpeg`, and the name does not end in `.mp3`
case-sensitively), yet the code accepts it — the file is stored and no
validation error is set — because the source lower-cases the name before
checking the extension. -/
theorem claim3_counterexample :
    jsStartsWith "" "video/" = false ∧ ("" : String) ≠ "audio/mpeg" ∧
    jsEndsWith "a.MP3" ".mp3" = false ∧
    (handleFileChange initState { name := "a.MP3", type := "", size := 4 }).file =
      some { name := "a.MP3", type := "", size := 4 } ∧
    (handleFileChange initState { name := "a.MP3", type := "", size := 4 }).error = none := by
  decide

/-- Claim C3 (amended): a candidate file is rejected — only the validation
error is set, every other field untouched — exactly when its MIME type does
not start with `video/`, is not `audio/mpeg`, and its lower-cased name does
not end in `.mp3`; every other file is accepted, which stores the file and
resets previous output, error and progress. -/
theorem claim3_amended (s : ConverterState) (f : FileData) :
    (jsStartsWith f.type "video/" = false → f.type ≠ "audio/mpeg" →
      jsEndsWith (jsToLower f.name) ".mp3" = false →
      handleFileChange s f = { s with error := some validationMsg }) ∧
    (jsStartsWith f.type "video/" = true ∨ f.type = "audio/mpeg" ∨
        jsEndsWith (jsToLower f.name) ".mp3" = true →
      handleFileChange s f =
        { s with file := some f, convertedAudio := none, error := none,
                 progress := 0 }) := by
  constructor
  · intro h1 h2 h3
    have hv : isValidFile f = false := by
      simp [isValidFile, h1, h3, h2]
    simp [handleFileChange, hv]
  · intro h
    have hv : isValidFile f = true := by
      rcases h with h | h | h <;> simp [isValidFile, h]
    simp [handleFileChange, hv]

/-- Witness for the amended claim C3 theorem: a `text/plain` file named
`b.txt` is rejected with only the validation error set. -/
theorem claim3_witness :
    handleFileChange initState { name := "b.txt", type := "text/plain", size := 1 } =
      { initState with error := some validationMsg } :=
  (claim3_amended initState { name := "b.txt", type := "text/plain", size := 1 }).1
    (by decide) (by decide) (by decide)

/-- Claim C4 (counterexample): two reachable states violate the claimed
invariant.  After select valid / convert / success / select invalid, a
converted output and an error message are present at the same time — the
rejected selection sets the error but does not clear the previous output,
so Done and Failed overlap.  After select valid / convert / success /
convert again, the output is present while a conversion is in progress —
starting a conversion never clears the previous output, so Done and
Converting overlap.  Both halves of the claimed exclusivity fail. -/
theorem claim4_counterexample :
    Reachable (runEvents claim4Events) ∧
    (runEvents claim4Events).convertedAudio = some "blob:out" ∧
    (runEvents claim4Events).error = some validationMsg ∧
    (runEvents claim4Events).isConverting = false ∧
    Reachable (runEvents claim4EventsB) ∧
    (runEvents claim4EventsB).convertedAudio = some "blob:out" ∧
    (runEvents claim4EventsB).isConverting = true := by
  refine ⟨⟨claim4Events, rfl⟩, ?_, ?_, ?_, ⟨claim4EventsB, rfl⟩, ?_, ?_⟩ <;> decide

/-- Claim C4 (amended): a non-null converted output is created only by a
successful conversion, which also clears the converting flag; a step
changes the output field only by being such a successful completion or by
clearing the output, and the clearing steps are exactly a reset and an
accepted file selection.  The output can however coexist with an error
message and with an in-progress conversion (see the counterexample), so
output presence does not imply a Done-only phase and the four phases are
not mutually exclusive. -/
theorem claim4_amended :
    (∀ (s : ConverterState) (u : String) (n : ℕ), s.isConverting = true →
      applyEvent s (Event.convertSuccess u n) =
        { s with convertedAudio := some u, audioSize := n, isConverting := false }) ∧
    (∀ (s : ConverterState) (e : Event),
      (applyEvent s e).convertedAudio ≠ s.convertedAudio →
      (∃ u n, e = Event.convertSuccess u n ∧ s.isConverting = true ∧
        applyEvent s e =
          { s with convertedAudio := some u, audioSize := n, isConverting := false }) ∨
      ((applyEvent s e).convertedAudio = none ∧
        (e = Event.resetClick ∨
         ∃ f, (e = Event.selectPick f ∨ e = Event.drop f) ∧ isValidFile f = true))) := by
  constructor
  · intro s u n h
    simp [applyEvent, h]
  · intro s e h
    cases e with
    | selectPick f =>
        by_cases hc : s.isConverting
        · simp [applyEvent, hc] at h
        · by_cases hv : isValidFile f
          · right
            exact ⟨by simp [applyEvent, hc, handleFileChange, hv],
              Or.inr ⟨f, Or.inl rfl, hv⟩⟩
          · simp [applyEvent, hc, handleFileChange, hv] at h
    | drop f =>
        by_cases hv : isValidFile f
        · right
          exact ⟨by simp [applyEvent, handleFileChange, hv],
            Or.inr ⟨f, Or.inr rfl, hv⟩⟩
        · simp [applyEvent, handleFileChange, hv] at h
    | dragOver => simp [applyEvent] at h
    | dragLeave => simp [applyEvent] at h
    | convertClick =>
        by_cases hc : convertClickStarts s
        · simp [applyEvent, hc, startConvert] at h
        · simp [applyEvent, hc] at h
    | progressUpdate p =>
        by_cases hc : s.isConverting <;> simp [applyEvent, hc] at h
    | convertSuccess u n =>
        by_cases hc : s.isConverting
        · left
          exact ⟨u, n, rfl, hc, by simp [applyEvent, hc]⟩
        · simp [applyEvent, hc] at h
    | convertFailure =>
        by_cases hc : s.isConverting <;> simp [applyEvent, hc] at h
    | resetClick =>
        by_cases hg : (s.file.isSome && !s.isConverting) || s.convertedAudio.isSome
        · right
          exact ⟨by simp [applyEvent, hg, resetConverter], Or.inl rfl⟩
        · simp [applyEvent, hg] at h

/-- Witness for the amended claim C4 theorem: completing a conversion in a
converting state sets the output and clears the converting flag. -/
theorem claim4_witness :
    applyEvent
        { file := some { name := "a.mp4", type := "video/mp4", size := 10 },
          isConverting := true, progress := 80, convertedAudio := none,
          audioSize := 0, error := none, isDragging := false }
        (Event.convertSuccess "blob:x" 9) =
      { file := some { name := "a.mp4", type := "video/mp4", size := 10 },
        isConverting := false, progress := 80, convertedAudio := some "blob:x",
        audioSize := 9, error := none, isDragging := false } :=
  claim4_amended.1 _ "blob:x" 9 rfl

/-- Claim C5: while a conversion is in progress, triggering convert again
changes no state field and starts no second engine invocation (the Convert
button is disabled when `!file || isConverting`). -/
theorem claim5_convert_noop (s : ConverterState) (h : s.isConverting = true) :
    applyEvent s Event.convertClick = s ∧ convertClickStarts s = false := by
  have hc : convertClickStarts s = false := by
    simp [convertClickStarts, h]
  exact ⟨by simp [applyEvent, hc], hc⟩

/-- Witness for claim C5 at a concrete converting state. -/
theorem claim5_witness :
    applyEvent
        { file := some { name := "a.mp4", type := "video/mp4", size := 10 },
          isConverting := true, progress := 40, convertedAudio := none,
          audioSize := 0, error := none, isDragging := false }
        Event.convertClick =
      { file := some { name := "a.mp4", type := "video/mp4", size := 10 },
        isConverting := true, progress := 40, convertedAudio := none,
        audioSize := 0, error := none, isDragging := false } :=
  (claim5_convert_noop _ rfl).1

/-- Claim C6: every exception during a conversion reaches the single catch
block, which surfaces the one generic failure message (beginning with
"Failed to convert"); the finally block clears the converting flag; the
selected file, the previous output and the progress are untouched, and no
retry happens (the failure step ends the conversion). -/
theorem claim6_failure (s : ConverterState) (h : s.isConverting = true) :
    (applyEvent s Event.convertFailure).error = some conversionErrorMsg ∧
    jsStartsWith conversionErrorMsg "Failed to convert" = true ∧
    (applyEvent s Event.convertFailure).isConverting = false ∧
    (applyEvent s Event.convertFailure).file = s.file ∧
    (applyEvent s Event.convertFailure).convertedAudio = s.convertedAudio ∧
    (applyEvent s Event.convertFailure).progress = s.progress := by
  simp [applyEvent, h]
  decide

/-- Witness for claim C6 at a concrete converting state. -/
theorem claim6_witness :
    (applyEvent
        { file := some { name := "a.mp4", type := "video/mp4", size := 10 },
          isConverting := true, progress := 70, convertedAudio := none,
          audioSize := 0, error := none, isDragging := false }
        Event.convertFailure).error = some conversionErrorMsg ∧
    jsStartsWith conversionErrorMsg "Failed to convert" = true ∧
    (applyEvent
        { file := some { name := "a.mp4", type := "video/mp4", size := 10 },
          isConverting := true, progress := 70, convertedAudio := none,
          audioSize := 0, error := none, isDragging := false }
        Event.convertFailure).isConverting = false ∧
    (applyEvent
        { file := some { name := "a.mp4", type := "video/mp4", size := 10 },
          isConverting := true, progress := 70, convertedAudio := none,
          audioSize := 0, error := none, isDragging := false }
        Event.convertFailure).file =
      some { name := "a.mp4", type := "video/mp4", size := 10 } ∧
    (applyEvent
        { file := some { name := "a.mp4", type := "video/mp4", size := 10 },
          isConverting := true, progress := 70, convertedAudio := none,
          audioSize := 0, error := none, isDragging := false }
        Event.convertFailure).convertedAudio = none ∧
    (applyEvent
        { file := some { name := "a.mp4", type := "video/mp4", size := 10 },
          isConverting := true, progress := 70, convertedAudio := none,
          audioSize := 0, error := none, isDragging := false }
        Event.convertFailure).progress = 70 :=
  claim6_failure
    { file := some { name := "a.mp4", type := "video/mp4", size := 10 },
      isConverting := true, progress := 70, convertedAudio := none,
      audioSize := 0, error := none, isDragging := false } rfl

/-- Claim C7 (counterexample): resetting a state whose output URL is
`blob:a` clears the state but performs no `revokeObjectURL` effect — the
source never revokes the object URL of the converted audio, so the claimed
release of the downloadable reference does not happen. -/
theorem claim7_counterexample :
    claim7State.convertedAudio = some "blob:a" ∧
    (resetConverter claim7State).1.convertedAudio = none ∧
    Effect.revokeObjectURL "blob:a" ∉ (resetConverter claim7State).2 := by
  refine ⟨rfl, rfl, ?_⟩
  decide

/-- Claim C7 (amended): reset sets the selected file and converted output to
null, progress to 0, the error to null and the recorded output size to 0,
leaves the converting and dragging flags unchanged, and as its only side
effect blanks the file-input element; it does not revoke the object URL
of the output. -/
theorem claim7_amended (s : ConverterState) :
    (resetConverter s).1.file = none ∧
    (resetConverter s).1.convertedAudio = none ∧
    (resetConverter s).1.progress = 0 ∧
    (resetConverter s).1.error = none ∧
    (resetConverter s).1.audioSize = 0 ∧
    (resetConverter s).1.isConverting = s.isConverting ∧
    (resetConverter s).1.isDragging = s.isDragging ∧
    (resetConverter s).2 = [Effect.clearInputValue] ∧
    ∀ u, Effect.revokeObjectURL u ∉ (resetConverter s).2 := by
  refine ⟨rfl, rfl, rfl, rfl, rfl, rfl, rfl, rfl, ?_⟩
  intro u
  simp [resetConverter]

/-- Witness for the amended claim C7 theorem at a concrete state. -/
theorem claim7_witness :
    (resetConverter claim7State).1.convertedAudio = none ∧
    Effect.revokeObjectURL "blob:zzz" ∉ (resetConverter claim7State).2 :=
  ⟨(claim7_amended claim7State).2.1,
   (claim7_amended claim7State).2.2.2.2.2.2.2.2 "blob:zzz"⟩

/-- In lists of characters, `takeWhile` and `dropWhile` split exactly at the
first element failing the predicate. -/
theorem takeWhile_dropWhile_append {p : Char → Bool} (l1 l2 : List Char) (x : Char)
    (h : ∀ c ∈ l1, p c = true) (hx : p x = false) :
    (l1 ++ x :: l2).takeWhile p = l1 ∧ (l1 ++ x :: l2).dropWhile p = x :: l2 := by
  induction l1 with
  | nil => simp [List.takeWhile_cons, List.dropWhile_cons, hx]
  | cons a l ih =>
      have ha : p a = true := h a (by simp)
      have hrest : ∀ c ∈ l, p c = true := fun c hc => h c (by simp [hc])
      obtain ⟨ih1, ih2⟩ := ih hrest
      simp [List.takeWhile_cons, List.dropWhile_cons, ha, ih1, ih2]

/-- Claim C8: a successful conversion wraps the output in a blob of content
type `audio/mp3`, and for any original name of the form `base.ext` — with a
nonempty final extension containing neither a dot nor a slash, the form the
regex `\.[^/.]+$` recognizes — the download filename is `base.mp3`. -/
theorem claim8_output (base ext : String) (hne : ext.data ≠ [])
    (hext : ∀ c ∈ ext.data, c ≠ '.' ∧ c ≠ '/') :
    outputBlobType = "audio/mp3" ∧
    downloadName (base ++ "." ++ ext) = base ++ ".mp3" := by
  refine ⟨rfl, ?_⟩
  have hchar : ∀ c ∈ ext.data.reverse, extChar c = true := by
    intro c hc
    rw [List.mem_reverse] at hc
    simp [extChar, (hext c hc).1, (hext c hc).2]
  have hdot : extChar '.' = false := by decide
  have hrev : (base ++ "." ++ ext).data.reverse =
      ext.data.reverse ++ '.' :: base.data.reverse := by
    simp [String.data_append]
  obtain ⟨htake, hdrop⟩ :=
    takeWhile_dropWhile_append ext.data.reverse base.data.reverse '.' hchar hdot
  unfold downloadName stripExt
  rw [hrev]
  simp only [htake, hdrop]
  rw [if_neg (by simpa using hne)]
  simp

/-- Witness for claim C8: `movie.mp4` downloads as `movie.mp3`. -/
theorem claim8_witness :
    outputBlobType = "audio/mp3" ∧
    downloadName ("movie" ++ "." ++ "mp4") = "movie" ++ ".mp3" :=
  claim8_output "movie" "mp4" (by decide) (by decide)

/-- When an engine instance is cached, `loadFFmpeg` returns it and changes
nothing, whatever the outcome of the (never reached) awaited calls. -/
theorem loadFFmpeg_cached (s : EngineState) (o : LoadOutcome) (e : ℕ)
    (h : s.ffmpegRef = some e) : loadFFmpeg s o = (s, some e) := by
  unfold loadFFmpeg
  rw [h]

/-- Invariant of all-successful sessions: the engine state is either
untouched or holds the single engine built by the first call, with both
assets fetched once. -/
theorem runLoads_success_spec (os : List LoadOutcome) (s : EngineState)
    (hs : s = initEngineState ∨
      (s.ffmpegRef = some 0 ∧ s.assetFetches = 2 ∧ s.constructed = 1))
    (hos : ∀ o ∈ os, o = LoadOutcome.success) :
    runLoads s os = initEngineState ∨
      ((runLoads s os).ffmpegRef = some 0 ∧ (runLoads s os).assetFetches = 2 ∧
        (runLoads s os).constructed = 1) := by
  induction os generalizing s with
  | nil => simpa [runLoads] using hs
  | cons o os ih =>
      have ho : o = LoadOutcome.success := hos o (by simp)
      have hos2 : ∀ x ∈ os, x = LoadOutcome.success := fun x hx => hos x (by simp [hx])
      rcases hs with h | ⟨h1, h2, h3⟩
      · subst h
        subst ho
        exact ih _ (Or.inr ⟨rfl, rfl, rfl⟩) hos2
      · rw [show runLoads s (o :: os) = runLoads (loadFFmpeg s o).1 os from rfl,
            loadFFmpeg_cached s o 0 h1]
        exact ih s (Or.inr ⟨h1, h2, h3⟩) hos2

/-- Claim C9 (counterexample): one session can fetch the remote assets more
than once.  In the first call both assets download but `ffmpeg.load`
throws, so `ffmpegRef.current` stays null; the user retries, and the second
call downloads both assets again and succeeds — four downloads in the
session, each asset fetched twice. -/
theorem claim9_counterexample :
    (loadSession [LoadOutcome.failLoad, LoadOutcome.success]).assetFetches = 4 ∧
    ¬ (loadSession [LoadOutcome.failLoad, LoadOutcome.success]).assetFetches ≤ 2 := by
  refine ⟨rfl, by decide⟩

/-- Claim C9 (amended): engine initialization is idempotent — if an engine
instance already exists, calling initialization again returns that same
instance without downloading assets or constructing a new engine — and in
any session all of whose initialization attempts succeed, the two remote
assets are fetched at most once in total and at most one engine is
constructed.  A failed attempt, however, leaves the cache empty and a retry
downloads the assets again (see the counterexample). -/
theorem claim9_amended :
    (∀ (s : EngineState) (o : LoadOutcome) (e : ℕ), s.ffmpegRef = some e →
      loadFFmpeg s o = (s, some e)) ∧
    (∀ os : List LoadOutcome, (∀ o ∈ os, o = LoadOutcome.success) →
      (loadSession os).assetFetches ≤ 2 ∧ (loadSession os).constructed ≤ 1) := by
  refine ⟨loadFFmpeg_cached, fun os hos => ?_⟩
  unfold loadSession
  rcases runLoads_success_spec os initEngineState (Or.inl rfl) hos with h | ⟨h1, h2, h3⟩
  · rw [h]
    constructor <;> norm_num [initEngineState]
  · rw [h2, h3]
    exact ⟨le_refl 2, le_refl 1⟩

/-- Witness for the amended claim C9 theorem at a concrete cached state and
an all-successful two-call session. -/
theorem claim9_witness :
    loadFFmpeg { ffmpegRef := some 7, nextId := 8, assetFetches := 2, constructed := 1 }
        LoadOutcome.success =
      ({ ffmpegRef := some 7, nextId := 8, assetFetches := 2, constructed := 1 }, some 7) ∧
    (loadSession [LoadOutcome.success, LoadOutcome.success]).assetFetches ≤ 2 ∧
    (loadSession [LoadOutcome.success, LoadOutcome.success]).constructed ≤ 1 :=
  ⟨claim9_amended.1 _ LoadOutcome.success 7 rfl,
   claim9_amended.2 [LoadOutcome.success, LoadOutcome.success] (by decide)⟩

/-- Claim C10: the size formatter returns `0 Bytes` for zero; for byte
counts in `[1, 1024^4)` it returns a number with a unit drawn from
`{Bytes, KB, MB, GB}`; for counts at or above `1024^4` the computed index
lies outside the unit array and the lookup yields no unit (JavaScript
`undefined`). -/
theorem claim10_formatter :
    formatFileSize 0 = (0, some "Bytes") ∧
    (∀ b : ℕ, 1 ≤ b → b < 1024 ^ 4 →
      ∃ u, (formatFileSize b).2 = some u ∧ u ∈ sizeUnits) ∧
    (∀ b : ℕ, 1024 ^ 4 ≤ b → (formatFileSize b).2 = none) := by
  refine ⟨rfl, ?_, ?_⟩
  · intro b h1 h4
    have hb : b ≠ 0 := by omega
    have hlog : Nat.log 1024 b < 4 := (Nat.lt_pow_iff_log_lt (by norm_num) hb).1 h4
    have hunit : (formatFileSize b).2 = sizeUnits[Nat.log 1024 b]? := by
      simp [formatFileSize, hb]
    rw [hunit]
    set i := Nat.log 1024 b with hi
    interval_cases i <;> exact ⟨_, rfl, by decide⟩
  · intro b h4
    have hb : b ≠ 0 := by positivity
    have hlog : 4 ≤ Nat.log 1024 b := (Nat.pow_le_iff_le_log (by norm_num) hb).1 h4
    have hunit : (formatFileSize b).2 = sizeUnits[Nat.log 1024 b]? := by
      simp [formatFileSize, hb]
    rw [hunit]
    exact List.getElem?_eq_none (by simpa [sizeUnits] using hlog)

/-- Witness for claim C10: 2048 bytes formats with a listed unit, and
`1024^4` bytes has none. -/
theorem claim10_witness :
    (∃ u, (formatFileSize 2048).2 = some u ∧ u ∈ sizeUnits) ∧
    (formatFileSize (1024 ^ 4)).2 = none :=
  ⟨claim10_formatter.2.1 2048 (by norm_num) (by norm_num),
   claim10_formatter.2.2 (1024 ^ 4) (le_refl _)⟩

end VC
